import Mathlib

/-
  Verification of the speech-recognition lifecycle controller of the
  Grocerli repository (src/hooks/useSpeechRecognition.ts).

  Shallow embedding: the controller's mutable React state and refs become
  one record `SessState`; each event listener and each public method
  becomes a pure function from state to state, additionally returning the
  list of externally visible actions it performed (engine primitive
  invocations and user callbacks).  JavaScript timers are modelled as
  pending slots in the state carrying their delay: `setTimeout` stores
  `some delay`, `clearTimeout` stores `none`, and a timer firing is a
  separate step that runs the scheduled callback and empties the slot
  (a cleared or already-fired timer never fires again, as in JS).
  Engine primitives may throw; this nondeterminism is a parameter
  `EngineBeh` of booleans saying which primitives throw, and the embedded
  code branches on it exactly where the source has try/catch.
  React setState is modelled as an immediate field update (the value the
  field holds once React flushes, which is what the public surface shows);
  the source itself never reads the async state inside handlers — it reads
  the refs, which are modelled as further fields updated in place.
-/

namespace SpeechRec

/-- Configuration options bound at construction: `continuous` and the
inactivity `timeout` in milliseconds (0 disables the watchdog).  The
other options (interimResults, lang, mobileOptimized) do not influence
any control flow the claims mention. -/
structure Config where
  continuous : Bool
  timeout : Nat
  deriving Repr, DecidableEq

/-- Which engine primitives throw when invoked.  Each of `start()`,
`abort()`, `stop()` on the underlying SpeechRecognition object may throw;
the controller catches every such failure at the call site. -/
structure EngineBeh where
  startThrows : Bool
  abortThrows : Bool
  stopThrows : Bool
  deriving Repr, DecidableEq

/-- The controller's session state: the React state fields
(`isSupported`, `isListening`, `transcript`, `finalTranscript`,
`manuallyStopped`), the synchronously updated refs
(`isListeningRef`, `manuallyStoppedRef`, `forceStoppedRef`,
`stopRequestedRef`), whether an engine binding exists
(`hasRecognition`, i.e. recognitionRef.current is non-null), and the two
pending timer slots (`inactivityTimeout`, `audioendTimeout`), each
holding the delay of the scheduled timer or `none` when no timer is
pending. -/
structure SessState where
  isSupported : Bool
  isListening : Bool
  transcript : String
  finalTranscript : String
  manuallyStopped : Bool
  isListeningRef : Bool
  manuallyStoppedRef : Bool
  forceStoppedRef : Bool
  stopRequestedRef : Bool
  hasRecognition : Bool
  inactivityTimeout : Option Nat
  audioendTimeout : Option Nat
  deriving Repr, DecidableEq

/-- Externally visible actions: engine primitive invocations (recorded
even when the primitive then throws) and user callbacks. -/
inductive Output where
  | engineStart : Output
  | engineAbort : Output
  | engineStop : Output
  | onResult : String → Bool → Output
  | onEnd : Output
  | onError : String → Output
  deriving Repr, DecidableEq

/-- One recognition hypothesis of a `result` event (the slice of
event.results from event.resultIndex on; maxAlternatives = 1, so each
result contributes its single transcript string and its isFinal flag). -/
structure Hyp where
  transcript : String
  isFinal : Bool
  deriving Repr, DecidableEq

/-- Concatenation of the finalized hypotheses' text, in event order
(the loop accumulating `finalText` in the result listener). -/
def finalText : List Hyp → String
  | [] => ""
  | h :: t => if h.isFinal then h.transcript ++ finalText t else finalText t

/-- Concatenation of the interim (non-final) hypotheses' text, in event
order (the loop accumulating `interimTranscript` in the result
listener). -/
def interimText : List Hyp → String
  | [] => ""
  | h :: t => if h.isFinal then interimText t else h.transcript ++ interimText t

/-- The audioend listener (source lines 68-93): sets the shadow listening
ref false; returns immediately if `stopRequested`; otherwise schedules the
100 ms restart-debounce timer only when the shadow listening ref (just
set false), `continuous`, and the negated stop flags all permit it. -/
def audioendHandler (cfg : Config) (s : SessState) : SessState × List Output :=
  let s1 := { s with isListeningRef := false }
  if s1.stopRequestedRef then (s1, [])
  else if s1.isListeningRef && cfg.continuous && !s1.manuallyStoppedRef && !s1.forceStoppedRef then
    ({ s1 with audioendTimeout := some 100 }, [])
  else (s1, [])

/-- The restart-debounce timer callback (the setTimeout body inside the
audioend listener): fires only when a timer is pending; re-checks the
shadow listening ref, both stop flags, `stopRequested`, and the binding;
only then invokes the engine's start primitive, setting the shadow ref
true unless the primitive throws (the catch ignores the failure). -/
def audioendTimerFire (beh : EngineBeh) (s : SessState) : SessState × List Output :=
  if s.audioendTimeout.isSome then
    let s1 := { s with audioendTimeout := none }
    if s1.isListeningRef && !s1.manuallyStoppedRef && !s1.forceStoppedRef
        && !s1.stopRequestedRef && s1.hasRecognition then
      (if beh.startThrows then s1 else { s1 with isListeningRef := true },
       [Output.engineStart])
    else (s1, [])
  else (s, [])

/-- The result listener (source lines 96-139): clears the inactivity
timer and reschedules it with the configured delay when `timeout > 0` and
the shadow listening ref is set; partitions the event's hypotheses into
final and interim text; appends non-empty final text to `finalTranscript`
with `onResult(text, true)`; replaces `transcript` with non-empty interim
text with `onResult(text, false)` (empty text triggers neither branch,
matching the JavaScript truthiness checks). -/
def resultHandler (cfg : Config) (s : SessState) (hyps : List Hyp) : SessState × List Output :=
  let s1 := { s with inactivityTimeout :=
      if cfg.timeout > 0 && s.isListeningRef then some cfg.timeout else none }
  let ftx := finalText hyps
  let itx := interimText hyps
  let s2 := if ftx = "" then s1 else { s1 with finalTranscript := s1.finalTranscript ++ ftx }
  let s3 := if itx = "" then s2 else { s2 with transcript := itx }
  (s3, (if ftx = "" then [] else [Output.onResult ftx true])
       ++ (if itx = "" then [] else [Output.onResult itx false]))

/-- The inactivity watchdog callback (the setTimeout body inside the
result listener): fires only when a timer is pending; when still shadow
listening, bound, and not manually stopped, invokes the abort primitive
and drops both listening flags; if abort throws, the catch only logs, so
the flags keep their previous values. -/
def inactivityTimerFire (beh : EngineBeh) (s : SessState) : SessState × List Output :=
  if s.inactivityTimeout.isSome then
    let s1 := { s with inactivityTimeout := none }
    if s1.isListeningRef && s1.hasRecognition && !s1.manuallyStoppedRef then
      (if beh.abortThrows then s1
       else { s1 with isListening := false, isListeningRef := false },
       [Output.engineAbort])
    else (s1, [])
  else (s, [])

/-- The error listener (source lines 141-163): kind "aborted" returns
with no action; kind "no-speech" logs and returns with no action; any
other kind invokes `onError(kind)` and, for "network" or "not-allowed",
additionally sets `isListening` false. -/
def errorHandler (s : SessState) (kind : String) : SessState × List Output :=
  if kind = "aborted" then (s, [])
  else if kind = "no-speech" then (s, [])
  else
    (if kind = "network" || kind = "not-allowed" then { s with isListening := false } else s,
     [Output.onError kind])

/-- The end listener (source lines 165-178): drops the shadow listening
ref; invokes `onEnd` unless manually stopped; when not continuous or
manually stopped, sets `isListening` false and resets the manual-stop
flag and ref. -/
def endHandler (cfg : Config) (s : SessState) : SessState × List Output :=
  let s1 := { s with isListeningRef := false }
  let outs := if s1.manuallyStoppedRef then [] else [Output.onEnd]
  (if !cfg.continuous || s1.manuallyStoppedRef then
     { s1 with isListening := false, manuallyStopped := false, manuallyStoppedRef := false }
   else s1, outs)

/-- startListening (source lines 206-226): no-op unless supported with an
engine binding; otherwise clears `stopRequested`, raises both listening
flags, clears the manual/force stop flags, clears both transcripts, and
invokes the engine's start primitive; if start throws, the catch drops
both listening flags (the other updates stand). -/
def startListening (beh : EngineBeh) (s : SessState) : SessState × List Output :=
  if !s.isSupported || !s.hasRecognition then (s, [])
  else
    let s1 := { s with stopRequestedRef := false,
                       isListening := true, isListeningRef := true,
                       manuallyStopped := false, manuallyStoppedRef := false,
                       forceStoppedRef := false,
                       transcript := "", finalTranscript := "" }
    (if beh.startThrows then { s1 with isListening := false, isListeningRef := false } else s1,
     [Output.engineStart])

/-- stopListening (source lines 228-267): no-op without an engine
binding; otherwise sets `stopRequested` first, drops both listening
flags, raises the manual/force stop flags, cancels both pending timers,
invokes the engine's abort primitive, falling back to the stop primitive
if abort throws and swallowing a failure of that too, then re-asserts the
converged flags. -/
def stopListening (beh : EngineBeh) (s : SessState) : SessState × List Output :=
  if !s.hasRecognition then (s, [])
  else
    ({ s with stopRequestedRef := true,
              isListening := false, isListeningRef := false,
              manuallyStopped := true, manuallyStoppedRef := true,
              forceStoppedRef := true,
              inactivityTimeout := none, audioendTimeout := none },
     if beh.abortThrows then [Output.engineAbort, Output.engineStop]
     else [Output.engineAbort])

/-- resetTranscript (source lines 269-272): clears both transcript
fields, touching nothing else. -/
def resetTranscript (s : SessState) : SessState :=
  { s with transcript := "", finalTranscript := "" }

/-- Every occurrence that can reach the controller after a stop, short of
a new startListening call: the four engine events, the two timer firings,
and the remaining public methods. -/
inductive Ev where
  | audioend : Ev
  | result : List Hyp → Ev
  | error : String → Ev
  | ended : Ev
  | fireAudioendTimer : Ev
  | fireInactivityTimer : Ev
  | stop : Ev
  | reset : Ev
  deriving Repr, DecidableEq

/-- Dispatch one event to its handler. -/
def step (cfg : Config) (beh : EngineBeh) (s : SessState) : Ev → SessState × List Output
  | Ev.audioend => audioendHandler cfg s
  | Ev.result hyps => resultHandler cfg s hyps
  | Ev.error k => errorHandler s k
  | Ev.ended => endHandler cfg s
  | Ev.fireAudioendTimer => audioendTimerFire beh s
  | Ev.fireInactivityTimer => inactivityTimerFire beh s
  | Ev.stop => stopListening beh s
  | Ev.reset => (resetTranscript s, [])

/-- Run a sequence of events, collecting every externally visible
action in order. -/
def run (cfg : Config) (beh : EngineBeh) (s : SessState) : List Ev → SessState × List Output
  | [] => (s, [])
  | e :: evs =>
    ((run cfg beh (step cfg beh s e).fst evs).fst,
     (step cfg beh s e).snd ++ (run cfg beh (step cfg beh s e).fst evs).snd)

/-- A state is quiesced when a stop has been requested or no engine
binding exists; in either case no restart path can revive the session. -/
def Quiesced (s : SessState) : Prop :=
  s.stopRequestedRef = true ∨ s.hasRecognition = false

/-- The audioend listener only drops the shadow listening ref: because it
assigns the ref false before testing it in the restart guard, the guard
is always false, so it never schedules the debounce timer and produces no
action. -/
theorem audioendHandler_eq (cfg : Config) (s : SessState) :
    audioendHandler cfg s = ({ s with isListeningRef := false }, []) := by
  simp [audioendHandler]

/-- Every single step preserves quiescence: no handler ever sets
`stopRequested` back to false (only startListening does) and none creates
an engine binding. -/
theorem quiesced_step_preserved (cfg : Config) (beh : EngineBeh) (s : SessState) (e : Ev)
    (hq : Quiesced s) : Quiesced (step cfg beh s e).fst := by
  cases e <;>
    simp only [step, audioendHandler, resultHandler, errorHandler, endHandler,
      audioendTimerFire, inactivityTimerFire, stopListening, resetTranscript] <;>
    (repeat' split) <;>
    first
      | exact hq
      | exact Or.inl rfl

/-- In a quiesced state, no step ever invokes the engine's start
primitive: the only path emitting it is the restart-debounce callback,
whose guard re-checks `stopRequested` and the binding at fire time. -/
theorem quiesced_step_noStart (cfg : Config) (beh : EngineBeh) (s : SessState) (e : Ev)
    (hq : Quiesced s) : Output.engineStart ∉ (step cfg beh s e).snd := by
  cases e with
  | fireAudioendTimer =>
    simp only [step, audioendTimerFire]
    rcases hq with h | h <;> (simp [h]; split <;> simp)
  | _ =>
    first
      | (rw [step, audioendHandler_eq]; simp)
      | (simp only [step, audioendHandler, resultHandler, errorHandler, endHandler,
            inactivityTimerFire, stopListening, resetTranscript];
         (repeat' split) <;> simp)

/-- Quiescence and the absence of start invocations extend to whole event
sequences. -/
theorem quiesced_run (cfg : Config) (beh : EngineBeh) :
    ∀ (evs : List Ev) (s : SessState), Quiesced s →
      Quiesced (run cfg beh s evs).fst ∧ Output.engineStart ∉ (run cfg beh s evs).snd
  | [], s, hq => ⟨hq, by simp [run]⟩
  | e :: evs, s, hq => by
    have h1 := quiesced_step_preserved cfg beh s e hq
    have h2 := quiesced_step_noStart cfg beh s e hq
    have ih := quiesced_run cfg beh evs (step cfg beh s e).fst h1
    refine ⟨ih.1, ?_⟩
    simp only [run, List.mem_append]
    exact fun hc => hc.elim h2 ih.2

/-- stopListening leaves the session quiesced: with a binding it sets
`stopRequested`; without one nothing changes and no binding exists. -/
theorem stopListening_quiesced (beh : EngineBeh) (s : SessState) :
    Quiesced (stopListening beh s).fst := by
  simp only [stopListening]
  split
  next h => exact Or.inr (by simpa using h)
  next h => exact Or.inl rfl

/-- Engine behaviour in which no primitive throws. -/
def behOk : EngineBeh := { startThrows := false, abortThrows := false, stopThrows := false }

/-- Engine behaviour in which every primitive throws. -/
def behBad : EngineBeh := { startThrows := true, abortThrows := true, stopThrows := true }

/-- The configuration the hook uses by default: continuous mode with the
3000 ms inactivity timeout. -/
def cfgC : Config := { continuous := true, timeout := 3000 }

/-- A supported, bound, actively listening session with text in both
transcript fields and both timers pending. -/
def sListening : SessState :=
  { isSupported := true, isListening := true, transcript := "two eggs",
    finalTranscript := "milk ", manuallyStopped := false, isListeningRef := true,
    manuallyStoppedRef := false, forceStoppedRef := false, stopRequestedRef := false,
    hasRecognition := true, inactivityTimeout := some 3000, audioendTimeout := some 100 }

/-- A supported, bound, freshly initialized idle session. -/
def sIdle : SessState :=
  { isSupported := true, isListening := false, transcript := "",
    finalTranscript := "", manuallyStopped := false, isListeningRef := false,
    manuallyStoppedRef := false, forceStoppedRef := false, stopRequestedRef := false,
    hasRecognition := true, inactivityTimeout := none, audioendTimeout := none }

/-- An unsupported runtime: no engine binding was ever created. -/
def sNoEngine : SessState :=
  { isSupported := false, isListening := false, transcript := "a",
    finalTranscript := "b", manuallyStopped := false, isListeningRef := true,
    manuallyStoppedRef := false, forceStoppedRef := false, stopRequestedRef := false,
    hasRecognition := false, inactivityTimeout := some 3000, audioendTimeout := some 100 }

/-- A string append is empty only when its left part is. -/
theorem append_eq_empty_left {a b : String} (h : a ++ b = "") : a = "" := by
  have hd : a.data ++ b.data = [] := by
    have h2 := congrArg String.data h
    simpa [String.data_append] using h2
  exact String.ext (List.append_eq_nil.mp hd).1

/-- An event whose hypotheses are all interim contributes no final
text. -/
theorem finalText_of_all_interim :
    ∀ (hyps : List Hyp), hyps.all (fun h => !h.isFinal) = true → finalText hyps = ""
  | [], _ => rfl
  | h :: t, hall => by
    simp only [List.all_cons, Bool.and_eq_true, Bool.not_eq_true'] at hall
    simp [finalText, hall.1, finalText_of_all_interim t hall.2]

/-- An event whose hypotheses are all final contributes no interim
text. -/
theorem interimText_of_all_final :
    ∀ (hyps : List Hyp), hyps.all (fun h => h.isFinal) = true → interimText hyps = ""
  | [], _ => rfl
  | h :: t, hall => by
    simp only [List.all_cons, Bool.and_eq_true] at hall
    simp [interimText, hall.1, interimText_of_all_final t hall.2]

/-- The result listener leaves every flag and the binding untouched; it
only writes the transcripts and the inactivity timer. -/
theorem resultHandler_frame (cfg : Config) (s : SessState) (hyps : List Hyp) :
    (resultHandler cfg s hyps).fst.isListening = s.isListening ∧
    (resultHandler cfg s hyps).fst.isListeningRef = s.isListeningRef ∧
    (resultHandler cfg s hyps).fst.manuallyStoppedRef = s.manuallyStoppedRef ∧
    (resultHandler cfg s hyps).fst.hasRecognition = s.hasRecognition := by
  refine ⟨?_, ?_, ?_, ?_⟩ <;>
    (simp only [resultHandler]; repeat' split) <;> rfl

/-- The result listener reschedules the inactivity timer exactly when the
watchdog is enabled and the shadow listening ref is up; otherwise the
pending timer is left cancelled. -/
theorem resultHandler_inactivity (cfg : Config) (s : SessState) (hyps : List Hyp) :
    (resultHandler cfg s hyps).fst.inactivityTimeout =
      (if cfg.timeout > 0 && s.isListeningRef then some cfg.timeout else none) := by
  simp only [resultHandler]
  repeat' split
  all_goals rfl

/-- C1: for every sequence of engine events and timer firings after a
stopListening() call with no new startListening(), neither a subsequent
audioend event nor any restart-debounce timer — whether it was pending
already when the stop arrived or would be scheduled later — ever invokes
the engine's start primitive. -/
theorem c1_stop_blocks_engine_start (cfg : Config) (beh : EngineBeh) (s : SessState)
    (evs : List Ev) :
    Output.engineStart ∉ (run cfg beh (stopListening beh s).fst evs).snd :=
  (quiesced_run cfg beh evs (stopListening beh s).fst (stopListening_quiesced beh s)).2

/-- Witness for C1: a concrete listening session with the debounce timer
already pending when the stop arrives, followed by audioend, both timer
firings and an end event, produces no start invocation. -/
theorem c1_stop_blocks_engine_start_witness :
    Output.engineStart ∉ (run cfgC behOk (stopListening behOk sListening).fst
      [Ev.audioend, Ev.fireAudioendTimer, Ev.fireInactivityTimer, Ev.ended]).snd :=
  c1_stop_blocks_engine_start cfgC behOk sListening
    [Ev.audioend, Ev.fireAudioendTimer, Ev.fireInactivityTimer, Ev.ended]

/-- C2, evaluated on the code: from a freshly started continuous session
with no stop requested, the audioend listener schedules no debounce timer
and the debounce window then elapses without any engine invocation at
all, because the listener assigns the shadow listening ref false and then
requires it true in its restart guard — the restart branch is
unreachable. -/
theorem c2_audioend_restart_never_fires :
    (audioendHandler cfgC (startListening behOk sIdle).fst).fst.audioendTimeout = none ∧
    (audioendHandler cfgC (startListening behOk sIdle).fst).snd = [] ∧
    (run cfgC behOk (startListening behOk sIdle).fst
        [Ev.audioend, Ev.fireAudioendTimer]).snd = [] := by
  decide

/-- C5: stopListening() is idempotent on the session state — a second
consecutive call leaves every field (flags, shadow flag, timer handles,
transcripts) exactly as the first call left them, for every engine
behaviour. -/
theorem c5_stopListening_idempotent (beh : EngineBeh) (s : SessState) :
    (stopListening beh (stopListening beh s).fst).fst = (stopListening beh s).fst := by
  cases hr : s.hasRecognition <;> simp [stopListening, hr]

/-- C10: without an engine binding, stopListening() returns immediately
as a complete no-op: no flag is set, no timer cancelled, no field of the
session state changed, and no engine primitive invoked. -/
theorem c10_stop_without_binding_noop (beh : EngineBeh) (s : SessState)
    (h : s.hasRecognition = false) : stopListening beh s = (s, []) := by
  simp [stopListening, h]

/-- Witness for C10: the unsupported-runtime session, with flags raised
and timers pending, is returned untouched. -/
theorem c10_stop_without_binding_noop_witness :
    sNoEngine.hasRecognition = false ∧ stopListening behOk sNoEngine = (sNoEngine, []) :=
  ⟨rfl, c10_stop_without_binding_noop behOk sNoEngine rfl⟩

/-- C3 counterexample: a result event carrying one final and no interim
hypothesis, handled in a session whose transcript still holds earlier
interim text: the event's interim concatenation is empty, yet the handler
leaves the old interim text in place instead of replacing the transcript
with that empty text — the source only assigns the transcript under a
truthiness check on the new interim text. -/
theorem c3_counterexample :
    interimText [{ transcript := "add milk", isFinal := true }] = "" ∧
    (resultHandler cfgC sListening
        [{ transcript := "add milk", isFinal := true }]).fst.transcript = "two eggs" ∧
    sListening.transcript = "two eggs" ∧
    (resultHandler cfgC sListening
        [{ transcript := "add milk", isFinal := true }]).fst.transcript ≠
      interimText [{ transcript := "add milk", isFinal := true }] := by
  decide

/-- C3 as amended: on every result event whose interim concatenation is
non-empty, the handler replaces the transcript wholesale with exactly
that concatenation (never appending); an event carrying no interim text
leaves the transcript unchanged. -/
theorem c3_interim_replaced_or_kept (cfg : Config) (s : SessState) (hyps : List Hyp) :
    (interimText hyps ≠ "" →
      (resultHandler cfg s hyps).fst.transcript = interimText hyps) ∧
    (interimText hyps = "" →
      (resultHandler cfg s hyps).fst.transcript = s.transcript) := by
  constructor <;> intro h
  · simp only [resultHandler]
    simp [h]
  · simp only [resultHandler]
    simp [h]
    split <;> rfl

/-- Witness for C3 as amended: a mixed final and interim event replaces
the stale transcript with exactly the new interim text. -/
theorem c3_interim_replaced_or_kept_witness :
    interimText [Hyp.mk "add milk" true, Hyp.mk "two " false, Hyp.mk "apples" false] ≠ "" ∧
    (resultHandler cfgC sListening
        [Hyp.mk "add milk" true, Hyp.mk "two " false, Hyp.mk "apples" false]).fst.transcript =
      interimText [Hyp.mk "add milk" true, Hyp.mk "two " false, Hyp.mk "apples" false] :=
  ⟨by decide,
   (c3_interim_replaced_or_kept cfgC sListening
      [Hyp.mk "add milk" true, Hyp.mk "two " false, Hyp.mk "apples" false]).1 (by decide)⟩

/-- C6: a result event whose hypotheses are all interim never mutates
`finalTranscript`, and one whose hypotheses are all final never mutates
the public interim `transcript`. -/
theorem c6_result_event_frame (cfg : Config) (s : SessState) (hyps : List Hyp) :
    (hyps.all (fun h => !h.isFinal) = true →
      (resultHandler cfg s hyps).fst.finalTranscript = s.finalTranscript) ∧
    (hyps.all (fun h => h.isFinal) = true →
      (resultHandler cfg s hyps).fst.transcript = s.transcript) := by
  constructor <;> intro hall
  · have hf := finalText_of_all_interim hyps hall
    simp only [resultHandler]
    simp [hf]
    split <;> rfl
  · have hi := interimText_of_all_final hyps hall
    simp only [resultHandler]
    simp [hi]
    split <;> rfl

/-- Witness for C6: an interim-only event keeps the final transcript and
a final-only event keeps the interim transcript, on a session holding
text in both fields. -/
theorem c6_result_event_frame_witness :
    ([Hyp.mk "tea" false].all (fun h => !h.isFinal) = true ∧
      (resultHandler cfgC sListening [Hyp.mk "tea" false]).fst.finalTranscript =
        sListening.finalTranscript) ∧
    ([Hyp.mk "tea" true].all (fun h => h.isFinal) = true ∧
      (resultHandler cfgC sListening [Hyp.mk "tea" true]).fst.transcript =
        sListening.transcript) :=
  ⟨⟨by decide, (c6_result_event_frame cfgC sListening [Hyp.mk "tea" false]).1 (by decide)⟩,
   ⟨by decide, (c6_result_event_frame cfgC sListening [Hyp.mk "tea" true]).2 (by decide)⟩⟩

/-- C4 counterexample: a freshly started listening session with the
3000 ms inactivity timeout configured that receives no result event at
all: the watchdog is only armed inside the result listener, so nothing is
pending, the silence window elapses (every pending timer slot firing)
with no engine invocation whatsoever, and `isListening` stays true — the
claim demands exactly one abort and `isListening` = false after 3000 ms
without results. -/
theorem c4_counterexample :
    (startListening behOk sIdle).fst.isListening = true ∧
    (startListening behOk sIdle).fst.inactivityTimeout = none ∧
    (run cfgC behOk (startListening behOk sIdle).fst
        [Ev.fireInactivityTimer, Ev.fireAudioendTimer]).snd = [] ∧
    (run cfgC behOk (startListening behOk sIdle).fst
        [Ev.fireInactivityTimer, Ev.fireAudioendTimer]).fst.isListening = true := by
  decide

/-- C4 as amended: with the inactivity timeout configured at 3000 ms, a
result event arriving in a started listening session arms the watchdog at
3000 ms, and if it fires with no further result event in between (the
engine cooperating on abort), the abort primitive is invoked exactly
once, `isListening` and the shadow flag become false, and no onError
callback fires. -/
theorem c4_watchdog_aborts_once (cfg : Config) (beh : EngineBeh) (s : SessState)
    (hyps : List Hyp) (htm : cfg.timeout = 3000) (habort : beh.abortThrows = false)
    (hl : s.isListeningRef = true) (hm : s.manuallyStoppedRef = false)
    (hrec : s.hasRecognition = true) :
    (resultHandler cfg s hyps).fst.inactivityTimeout = some 3000 ∧
    (inactivityTimerFire beh (resultHandler cfg s hyps).fst).snd = [Output.engineAbort] ∧
    (inactivityTimerFire beh (resultHandler cfg s hyps).fst).fst.isListening = false ∧
    (inactivityTimerFire beh (resultHandler cfg s hyps).fst).fst.isListeningRef = false := by
  have h1 : (resultHandler cfg s hyps).fst.inactivityTimeout = some 3000 := by
    rw [resultHandler_inactivity, htm, hl]
    simp
  have hfr := resultHandler_frame cfg s hyps
  refine ⟨h1, ?_, ?_, ?_⟩ <;>
    simp [inactivityTimerFire, h1, hfr.2.1, hfr.2.2.1, hfr.2.2.2, hl, hm, hrec, habort]

/-- Witness for C4 as amended: the concrete default configuration, a
cooperative engine, the listening session and a single final result. -/
theorem c4_watchdog_aborts_once_witness :
    (cfgC.timeout = 3000 ∧ behOk.abortThrows = false ∧ sListening.isListeningRef = true ∧
      sListening.manuallyStoppedRef = false ∧ sListening.hasRecognition = true) ∧
    (resultHandler cfgC sListening [Hyp.mk "milk" true]).fst.inactivityTimeout = some 3000 ∧
    (inactivityTimerFire behOk
        (resultHandler cfgC sListening [Hyp.mk "milk" true]).fst).snd = [Output.engineAbort] ∧
    (inactivityTimerFire behOk
        (resultHandler cfgC sListening [Hyp.mk "milk" true]).fst).fst.isListening = false ∧
    (inactivityTimerFire behOk
        (resultHandler cfgC sListening [Hyp.mk "milk" true]).fst).fst.isListeningRef = false :=
  ⟨⟨rfl, rfl, rfl, rfl, rfl⟩,
   c4_watchdog_aborts_once cfgC behOk sListening [Hyp.mk "milk" true] rfl rfl rfl rfl rfl⟩

/-- The transcript after a result event: replaced by the interim
concatenation when that is non-empty, untouched otherwise. -/
theorem resultHandler_transcript (cfg : Config) (s : SessState) (hyps : List Hyp) :
    (resultHandler cfg s hyps).fst.transcript =
      (if interimText hyps = "" then s.transcript else interimText hyps) := by
  simp only [resultHandler]
  repeat' split
  all_goals rfl

/-- The final transcript after a result event: extended by the final
concatenation when that is non-empty, untouched otherwise. -/
theorem resultHandler_final (cfg : Config) (s : SessState) (hyps : List Hyp) :
    (resultHandler cfg s hyps).fst.finalTranscript =
      (if finalText hyps = "" then s.finalTranscript
       else s.finalTranscript ++ finalText hyps) := by
  simp only [resultHandler]
  repeat' split
  all_goals rfl

/-- C7: startListening() (when supported with an engine binding) leaves
both transcript fields empty — they are assigned empty before the engine
start primitive is invoked and kept empty even when it throws — and
resetTranscript() clears both; moreover no event or other method ever
clears one transcript field without the other: any step that turns a
non-empty transcript empty also leaves the final transcript empty, and
vice versa. -/
theorem c7_transcripts_cleared_together (beh : EngineBeh) (cfg : Config) (s : SessState)
    (e : Ev) (hsup : s.isSupported = true) (hrec : s.hasRecognition = true) :
    ((startListening beh s).fst.transcript = "" ∧
      (startListening beh s).fst.finalTranscript = "") ∧
    ((resetTranscript s).transcript = "" ∧ (resetTranscript s).finalTranscript = "") ∧
    (((step cfg beh s e).fst.transcript = "" ∧ s.transcript ≠ "" →
        (step cfg beh s e).fst.finalTranscript = "") ∧
     ((step cfg beh s e).fst.finalTranscript = "" ∧ s.finalTranscript ≠ "" →
        (step cfg beh s e).fst.transcript = "")) := by
  refine ⟨?_, ⟨rfl, rfl⟩, ?_⟩
  · cases hb : beh.startThrows <;> simp [startListening, hsup, hrec, hb]
  · cases e with
    | result hyps =>
      constructor
      · rintro ⟨ht, hne⟩
        rw [step, resultHandler_transcript] at ht
        exfalso
        by_cases hi : interimText hyps = ""
        · rw [if_pos hi] at ht; exact hne ht
        · rw [if_neg hi] at ht; exact hi ht
      · rintro ⟨hf, hne⟩
        rw [step, resultHandler_final] at hf
        exfalso
        by_cases hft : finalText hyps = ""
        · rw [if_pos hft] at hf; exact hne hf
        · rw [if_neg hft] at hf; exact hne (append_eq_empty_left hf)
    | reset => exact ⟨fun _ => rfl, fun _ => rfl⟩
    | _ =>
      simp only [step, audioendHandler, errorHandler, endHandler,
        audioendTimerFire, inactivityTimerFire, stopListening]
      repeat' split
      all_goals exact ⟨fun h => absurd h.1 h.2, fun h => absurd h.1 h.2⟩

/-- Witness for C7: a supported, bound session with non-empty text in
both transcript fields, stepped through an audioend event. -/
theorem c7_transcripts_cleared_together_witness :
    (sListening.isSupported = true ∧ sListening.hasRecognition = true) ∧
    ((startListening behOk sListening).fst.transcript = "" ∧
      (startListening behOk sListening).fst.finalTranscript = "") ∧
    ((resetTranscript sListening).transcript = "" ∧
      (resetTranscript sListening).finalTranscript = "") ∧
    (((step cfgC behOk sListening Ev.audioend).fst.transcript = "" ∧
        sListening.transcript ≠ "" →
        (step cfgC behOk sListening Ev.audioend).fst.finalTranscript = "") ∧
     ((step cfgC behOk sListening Ev.audioend).fst.finalTranscript = "" ∧
        sListening.finalTranscript ≠ "" →
        (step cfgC behOk sListening Ev.audioend).fst.transcript = "")) :=
  ⟨⟨rfl, rfl⟩, c7_transcripts_cleared_together behOk cfgC sListening Ev.audioend rfl rfl⟩

/-- C8: the error listener ignores kinds "no-speech" and "aborted"
entirely — no onError, state untouched; any other kind invokes onError
with exactly that kind exactly once, and the kinds "network" and
"not-allowed" additionally force `isListening` to false. -/
theorem c8_error_classified (s : SessState) (kind : String)
    (h1 : kind ≠ "no-speech") (h2 : kind ≠ "aborted") :
    errorHandler s "no-speech" = (s, []) ∧
    errorHandler s "aborted" = (s, []) ∧
    (errorHandler s kind).snd = [Output.onError kind] ∧
    ((kind = "network" ∨ kind = "not-allowed") →
      (errorHandler s kind).fst.isListening = false) := by
  refine ⟨by simp [errorHandler], by simp [errorHandler], by simp [errorHandler, h1, h2], ?_⟩
  rintro (hd | hd) <;> subst hd <;> simp [errorHandler]

/-- Witness for C8 at the concrete kind "audio-capture" (handled by the
catch-all branch) with the disjunctive part vacuous there. -/
theorem c8_error_classified_witness :
    ("audio-capture" ≠ "no-speech" ∧ "audio-capture" ≠ "aborted") ∧
    errorHandler sListening "no-speech" = (sListening, []) ∧
    errorHandler sListening "aborted" = (sListening, []) ∧
    (errorHandler sListening "audio-capture").snd = [Output.onError "audio-capture"] ∧
    (("audio-capture" = "network" ∨ "audio-capture" = "not-allowed") →
      (errorHandler sListening "audio-capture").fst.isListening = false) :=
  ⟨⟨by decide, by decide⟩, c8_error_classified sListening "audio-capture" (by decide) (by decide)⟩

/-- C9: the public methods are total and converge the controller's flags
for every engine behaviour; in particular when the engine's start, abort
and stop primitives all throw, every failure is caught at the call site:
startListening reverts both listening flags and keeps the cleared
transcripts, stopListening still sets `stopRequested`, drops the
listening flags, raises both stop flags, cancels both timers and falls
back from abort to stop swallowing both failures, and resetTranscript
clears both transcripts. -/
theorem c9_public_methods_catch_all (beh : EngineBeh) (s : SessState)
    (h1 : beh.startThrows = true) (h2 : beh.abortThrows = true) (_h3 : beh.stopThrows = true)
    (hsup : s.isSupported = true) (hrec : s.hasRecognition = true) :
    (startListening beh s).fst.isListening = false ∧
    (startListening beh s).fst.isListeningRef = false ∧
    (startListening beh s).fst.transcript = "" ∧
    (startListening beh s).fst.finalTranscript = "" ∧
    (startListening beh s).snd = [Output.engineStart] ∧
    (stopListening beh s).fst.stopRequestedRef = true ∧
    (stopListening beh s).fst.isListening = false ∧
    (stopListening beh s).fst.isListeningRef = false ∧
    (stopListening beh s).fst.manuallyStoppedRef = true ∧
    (stopListening beh s).fst.forceStoppedRef = true ∧
    (stopListening beh s).fst.inactivityTimeout = none ∧
    (stopListening beh s).fst.audioendTimeout = none ∧
    (stopListening beh s).snd = [Output.engineAbort, Output.engineStop] ∧
    (resetTranscript s).transcript = "" ∧ (resetTranscript s).finalTranscript = "" := by
  simp [startListening, stopListening, resetTranscript, h1, h2, hsup, hrec]

/-- Witness for C9: the all-throwing engine behaviour against the
concrete listening session. -/
theorem c9_public_methods_catch_all_witness :
    (behBad.startThrows = true ∧ behBad.abortThrows = true ∧ behBad.stopThrows = true ∧
      sListening.isSupported = true ∧ sListening.hasRecognition = true) ∧
    (startListening behBad sListening).fst.isListening = false ∧
    (startListening behBad sListening).fst.isListeningRef = false ∧
    (startListening behBad sListening).fst.transcript = "" ∧
    (startListening behBad sListening).fst.finalTranscript = "" ∧
    (startListening behBad sListening).snd = [Output.engineStart] ∧
    (stopListening behBad sListening).fst.stopRequestedRef = true ∧
    (stopListening behBad sListening).fst.isListening = false ∧
    (stopListening behBad sListening).fst.isListeningRef = false ∧
    (stopListening behBad sListening).fst.manuallyStoppedRef = true ∧
    (stopListening behBad sListening).fst.forceStoppedRef = true ∧
    (stopListening behBad sListening).fst.inactivityTimeout = none ∧
    (stopListening behBad sListening).fst.audioendTimeout = none ∧
    (stopListening behBad sListening).snd = [Output.engineAbort, Output.engineStop] ∧
    (resetTranscript sListening).transcript = "" ∧
    (resetTranscript sListening).finalTranscript = "" :=
  ⟨⟨rfl, rfl, rfl, rfl, rfl⟩,
   c9_public_methods_catch_all behBad sListening rfl rfl rfl rfl rfl⟩

end SpeechRec
